import Mathlib

/-!
Verification development for the data-source onboarding wizard
(frontend datasource form components).

The definitions below are a shallow embedding of the TypeScript/Vue source:
  * the selection reconciler (`tableListWithSearch`, the `keywords` watcher,
    `handleCheckAllChange`, `handleCheckedTablesChange`),
  * the configuration builder (`buildConf`, `initForm`),
  * the wizard step controller (`next`, including the concatenate-mode
    variant) and the upload guard (`beforeUpload`).

JavaScript-specific behaviour is modelled explicitly:
  * `x || d` on strings with `jsOrStr` (empty string is falsy),
  * `x ? x : 30` on numbers with `jsOrInt` (0 is falsy),
  * `[...new Set(l)]` with `jsSetDedup` (keeps first occurrences),
  * `String.prototype.includes` (after `toLowerCase`) with `jsIncludesLower`,
  * `parseInt` on a trimmed decimal token with `parseIntJs`
    (`none` models `NaN`; JSON serializes `NaN` as `null`, and
    `Array.prototype.join` renders `null` as the empty string).

The AES helpers `encrypted`/`decrypted` come from a module outside the
sources under verification. Modelled from the spec: the spec treats
`encrypt`/`decrypt` (together with JSON serialize/parse of the typed
configuration payload) as an opaque lossless pair, so the composite
`encrypted ∘ JSON.stringify` is modelled as the constructor `Blob.enc` on
the typed payload and `JSON.parse ∘ decrypted` as the projection that
pattern-matches it; `decrypt (encrypt x) = x` holds by construction.
-/

/-- JS `s || d` for strings: the empty string is falsy. -/
def jsOrStr (s d : String) : String :=
  if s = "" then d else s

/-- JS `n ? n : d` (and `n || d`) for integers: `0` is falsy. -/
def jsOrInt (n d : Int) : Int :=
  if n = 0 then d else n

/-- JS truthiness of a possibly-absent string field (`undefined` and `""` are falsy). -/
def jsTruthyStr : Option String → Bool
  | none => false
  | some s => !(s = "")

/-- `toLowerCase` on a character list. -/
def charsToLower (l : List Char) : List Char := l.map Char.toLower

/-- `trim()` on a string: strip whitespace from both ends. -/
def strTrim (s : String) : String :=
  String.mk (((s.data.dropWhile Char.isWhitespace).reverse.dropWhile
    Char.isWhitespace).reverse)

/-- Worker for `splitComma`: accumulate the current token (reversed). -/
def splitCommaGo (acc : List Char) : List Char → List String
  | [] => [String.mk acc.reverse]
  | c :: cs =>
    if c = ',' then String.mk acc.reverse :: splitCommaGo [] cs
    else splitCommaGo (c :: acc) cs

/-- JS `s.split(',')`: empty tokens are kept and `"".split(',')` is `[""]`. -/
def splitComma (s : String) : List String := splitCommaGo [] s.data

/-- Digit-run value for `parseIntJs`: `none` when no leading digit (JS `NaN`). -/
def digitsValJs (l : List Char) : Option Nat :=
  let ds := l.takeWhile Char.isDigit
  if ds.isEmpty then none
  else some (ds.foldl (fun acc c => acc * 10 + (c.toNat - '0'.toNat)) 0)

/-- JS `parseInt` on an already-trimmed token, restricted to decimal notation:
an optional sign followed by a digit run; junk after the digits is ignored,
and a token with no leading digits gives `NaN` (modelled as `none`). -/
def parseIntJs (s : String) : Option Int :=
  match s.toList with
  | '-' :: rest => (digitsValJs rest).map (fun n => -(n : Int))
  | '+' :: rest => (digitsValJs rest).map (fun n => (n : Int))
  | l => (digitsValJs l).map (fun n => (n : Int))

/-- `successStatusCodes.split(',').map(code => parseInt(code.trim()))`. -/
def parseCodes (s : String) : List (Option Int) :=
  (splitComma s).map (fun p => parseIntJs (strTrim p))

/-- One element of `Array.prototype.join`: a number prints as its decimal
text, `null` (a serialized `NaN`) prints as the empty string. -/
def joinCodeElem : Option Int → String
  | some n => toString n
  | none => ""

/-- JS `codes.join(',')` on the stored status-code array. -/
def joinCodes (l : List (Option Int)) : String :=
  String.intercalate "," (l.map joinCodeElem)

/-- Worker for `jsSetDedup`: keep each element the first time it is seen. -/
def jsSetDedupAux (seen : List String) : List String → List String
  | [] => []
  | x :: xs =>
    if seen.contains x then jsSetDedupAux seen xs
    else x :: jsSetDedupAux (x :: seen) xs

/-- JS `[...new Set(l)]`: deduplicate keeping the first occurrence of each
element, preserving order. -/
def jsSetDedup (l : List String) : List String := jsSetDedupAux [] l

/-- `a` is a (character-wise) prefix of `b`. -/
def charsPrefix : List Char → List Char → Bool
  | [], _ => true
  | _ :: _, [] => false
  | a :: as, b :: bs => a = b && charsPrefix as bs

/-- `sub` occurs contiguously in the second list (JS `String.prototype.includes`). -/
def charsInfix (sub : List Char) : List Char → Bool
  | [] => sub.isEmpty
  | c :: cs => charsPrefix sub (c :: cs) || charsInfix sub cs

/-- JS `a.toLowerCase().includes(b.toLowerCase())`. -/
def jsIncludesLower (a b : String) : Bool :=
  charsInfix (charsToLower b.data) (charsToLower a.data)

/-- A sheet/table entry `{tableName, tableComment}` as produced by ingestion. -/
structure Sheet where
  tableName : String
  tableComment : String
deriving DecidableEq

/-- A certificate entry `{target, key, value}` of the api auth side channel. -/
structure CertEntry where
  target : String
  key : String
  value : String
deriving DecidableEq

/-- The api-shape configuration payload assembled by `buildConf`. -/
structure ApiConf where
  endpoint : String
  method : String
  requestBody : String
  successStatusCodes : List (Option Int)
  certificateList : List CertEntry
  timeout : Int
  originType : String
deriving DecidableEq

/-- The relational/excel-shape configuration payload assembled by `buildConf`. -/
structure RelConf where
  host : String
  port : Int
  username : String
  password : String
  database : String
  extraJdbc : String
  dbSchema : String
  filename : String
  sheets : List Sheet
  mode : String
  timeout : Int
  originType : String
deriving DecidableEq

/-- The typed payload serialized into the configuration blob. -/
inductive ConfPayload where
  | rel (c : RelConf)
  | api (c : ApiConf)
deriving DecidableEq

/-- An encrypted serialized configuration, i.e. `encrypted(JSON.stringify(payload))`.
Modelled from the spec: the encryption primitive together with JSON
round-tripping is an opaque lossless pair, so the blob is the payload
tagged by the constructor and `decrypt (encrypt x) = x` holds definitionally. -/
inductive Blob where
  | enc (payload : ConfPayload)
deriving DecidableEq

/-- A JSON value stored in one field of the persistable record. -/
inductive FVal where
  | vs (v : String)
  | vn (v : Int)
  | vsheets (v : List Sheet)
  | vcerts (v : List CertEntry)
  | vblob (v : Blob)
deriving DecidableEq

/-- The persistable record sent to `datasourceApi.add`/`update`:
the JSON field list of `JSON.parse(JSON.stringify(form))` after the
branch-specific `delete obj.*` statements. -/
abbrev DsRecord := List (String × FVal)

/-- The single mutable form object (component `form` ref of the datasource
form). Fields follow the declared initial object; `id`, `requestBody` and
`successStatusCodes` are `Option` because those keys are only created by
later assignments (an absent key does not appear in `JSON.stringify`). -/
structure FormState where
  id : Option Int
  name : String
  description : String
  type : String
  configuration : Option Blob
  driver : String
  host : String
  port : Int
  username : String
  password : String
  database : String
  extraJdbc : String
  dbSchema : String
  filename : String
  sheets : List Sheet
  mode : String
  timeout : Int
  originType : String
  endpoint : String
  method : String
  date_m : String
  p_date_m : String
  headerKey : String
  headerValue : String
  cookieKey : String
  cookieValue : String
  paramKey : String
  paramValue : String
  certificate : Option (List CertEntry)
  certificateList : List CertEntry
  requestBody : Option String
  successStatusCodes : Option String
deriving DecidableEq

/-- The component's declared initial `form` object (wizard-open state);
`activeType` is the `type` passed by the parent. The `certificate` field is
initially the empty string, i.e. `none` (falsy). -/
def initialForm (activeType : String) : FormState :=
  { id := none
    name := ""
    description := ""
    type := activeType
    configuration := none
    driver := ""
    host := ""
    port := 0
    username := ""
    password := ""
    database := ""
    extraJdbc := ""
    dbSchema := ""
    filename := ""
    sheets := []
    mode := "service_name"
    timeout := 30
    originType := "local"
    endpoint := ""
    method := "POST"
    date_m := ""
    p_date_m := ""
    headerKey := ""
    headerValue := ""
    cookieKey := ""
    cookieValue := ""
    paramKey := ""
    paramValue := ""
    certificate := none
    certificateList := []
    requestBody := none
    successStatusCodes := none }

/-- The certificate list assembled by the api branch of `buildConf`:
exactly those of the header/cookie/param pairs whose key and value are both
non-empty (JS truthiness of both strings). -/
def certsOf (f : FormState) : List CertEntry :=
  (if f.headerKey ≠ "" ∧ f.headerValue ≠ "" then
      [{ target := "header", key := f.headerKey, value := f.headerValue }]
    else []) ++
  (if f.cookieKey ≠ "" ∧ f.cookieValue ≠ "" then
      [{ target := "cookie", key := f.cookieKey, value := f.cookieValue }]
    else []) ++
  (if f.paramKey ≠ "" ∧ f.paramValue ≠ "" then
      [{ target := "param", key := f.paramKey, value := f.paramValue }]
    else [])

/-- The success status codes stored by the api branch of `buildConf`:
`[200, 201]` unless `form.successStatusCodes` is truthy, in which case the
comma-separated string is split and each trimmed token parsed. -/
def codesOf (f : FormState) : List (Option Int) :=
  if jsTruthyStr f.successStatusCodes then
    parseCodes (f.successStatusCodes.getD "")
  else [some 200, some 201]

/-- The api-shape payload written into `form.configuration` by `buildConf`. -/
def apiConfOf (f : FormState) : ApiConf :=
  { endpoint := f.endpoint
    method := jsOrStr f.method "POST"
    requestBody := jsOrStr (f.requestBody.getD "") ""
    successStatusCodes := codesOf f
    certificateList := certsOf f
    timeout := jsOrInt f.timeout 30
    originType := "api" }

/-- The relational/excel-shape payload written into `form.configuration` by
the non-api branch of `buildConf`. -/
def relConfOf (f : FormState) : RelConf :=
  { host := f.host
    port := f.port
    username := f.username
    password := f.password
    database := f.database
    extraJdbc := f.extraJdbc
    dbSchema := f.dbSchema
    filename := f.filename
    sheets := f.sheets
    mode := f.mode
    timeout := f.timeout
    originType := jsOrStr f.originType "local" }

/-- A JSON field that is only present when the value exists. -/
def optEntry (k : String) : Option FVal → List (String × FVal)
  | none => []
  | some v => [(k, v)]

/-- The `configuration` field of the serialized form: the initial `''`
(when no blob was built yet) or the encrypted blob. -/
def fvalOfBlob : Option Blob → FVal
  | none => FVal.vs ""
  | some b => FVal.vblob b

/-- The `certificate` field of the serialized form: the initial `''` or the
plain (unencrypted) serialized certificate list. -/
def fvalOfCerts : Option (List CertEntry) → FVal
  | none => FVal.vs ""
  | some l => FVal.vcerts l

/-- `JSON.parse(JSON.stringify(form))` as a JSON field list, in the key
order of the declared object; the dynamically-created keys `id`,
`requestBody` and `successStatusCodes` appear only once assigned. -/
def formJson (f : FormState) : DsRecord :=
  [("name", FVal.vs f.name),
   ("description", FVal.vs f.description),
   ("type", FVal.vs f.type),
   ("configuration", fvalOfBlob f.configuration),
   ("driver", FVal.vs f.driver),
   ("host", FVal.vs f.host),
   ("port", FVal.vn f.port),
   ("username", FVal.vs f.username),
   ("password", FVal.vs f.password),
   ("database", FVal.vs f.database),
   ("extraJdbc", FVal.vs f.extraJdbc),
   ("dbSchema", FVal.vs f.dbSchema),
   ("filename", FVal.vs f.filename),
   ("sheets", FVal.vsheets f.sheets),
   ("mode", FVal.vs f.mode),
   ("timeout", FVal.vn f.timeout),
   ("originType", FVal.vs f.originType),
   ("endpoint", FVal.vs f.endpoint),
   ("method", FVal.vs f.method),
   ("date_m", FVal.vs f.date_m),
   ("p_date_m", FVal.vs f.p_date_m),
   ("headerKey", FVal.vs f.headerKey),
   ("headerValue", FVal.vs f.headerValue),
   ("cookieKey", FVal.vs f.cookieKey),
   ("cookieValue", FVal.vs f.cookieValue),
   ("paramKey", FVal.vs f.paramKey),
   ("paramValue", FVal.vs f.paramValue),
   ("certificate", fvalOfCerts f.certificate),
   ("certificateList", FVal.vcerts f.certificateList)]
  ++ optEntry "id" (f.id.map FVal.vn)
  ++ optEntry "requestBody" (f.requestBody.map FVal.vs)
  ++ optEntry "successStatusCodes" (f.successStatusCodes.map FVal.vs)

/-- The keys removed by `delete obj.*` in the api branch of `buildConf`. -/
def apiDeletedKeys : List String :=
  ["endpoint", "headerKey", "headerValue", "cookieKey", "cookieValue",
   "paramKey", "paramValue", "timeout", "originType",
   "driver", "host", "port", "username", "password", "database",
   "extraJdbc", "dbSchema", "filename", "sheets", "mode"]

/-- The keys removed by `delete obj.*` in the relational branch of `buildConf`. -/
def relDeletedKeys : List String :=
  ["driver", "host", "port", "username", "password", "database",
   "extraJdbc", "dbSchema", "filename", "sheets", "mode", "timeout",
   "originType"]

/-- The api branch of `buildConf`: mutate `form.configuration` (freshly
encrypted api payload) and `form.certificate` (plain serialized certificate
list), then return the serialized copy with the api-deleted keys removed.
The first component is the mutated live form, the second the persistable
record. -/
def buildConfApi (f : FormState) : FormState × DsRecord :=
  let f' := { f with
    configuration := some (Blob.enc (ConfPayload.api (apiConfOf f)))
    certificate := some (certsOf f) }
  (f', (formJson f').filter (fun kv => !(apiDeletedKeys.contains kv.1)))

/-- The relational/excel branch of `buildConf`: mutate `form.configuration`
(freshly encrypted relational payload), then return the serialized copy with
the relational-deleted keys removed. -/
def buildConfRel (f : FormState) : FormState × DsRecord :=
  let f' := { f with
    configuration := some (Blob.enc (ConfPayload.rel (relConfOf f))) }
  (f', (formJson f').filter (fun kv => !(relDeletedKeys.contains kv.1)))

/-- `buildConf`: branch on `form.type === 'api'`. -/
def buildConf (f : FormState) : FormState × DsRecord :=
  if f.type = "api" then buildConfApi f else buildConfRel f

/-- The fields of a persisted data-source record read by `initForm`. -/
structure DsItem where
  id : Option Int
  name : String
  description : String
  type : String
  configuration : Option Blob
  certificate : Option (List CertEntry)

/-- `record[k]` (`undefined` when the key is absent). -/
def recordGet (r : DsRecord) (k : String) : Option FVal :=
  (r.find? (fun kv => kv.1 = k)).map (fun kv => kv.2)

/-- Read a string field of a record (`""` when absent). -/
def recordStr (r : DsRecord) (k : String) : String :=
  match recordGet r k with
  | some (FVal.vs v) => v
  | _ => ""

/-- Read the configuration blob of a record; `''` (and an absent key) is
falsy, so it yields `none`. -/
def recordBlob (r : DsRecord) (k : String) : Option Blob :=
  match recordGet r k with
  | some (FVal.vblob b) => some b
  | _ => none

/-- Read the plain certificate list of a record; `''` is falsy (`none`). -/
def recordCerts (r : DsRecord) (k : String) : Option (List CertEntry) :=
  match recordGet r k with
  | some (FVal.vcerts l) => some l
  | _ => none

/-- Read the numeric `id` field of a record. -/
def recordIdOpt (r : DsRecord) : Option Int :=
  match recordGet r "id" with
  | some (FVal.vn v) => some v
  | _ => none

/-- The view of a persistable record as the `item` argument of `initForm`. -/
def itemOfRecord (r : DsRecord) : DsItem :=
  { id := recordIdOpt r
    name := recordStr r "name"
    description := recordStr r "description"
    type := recordStr r "type"
    configuration := recordBlob r "configuration"
    certificate := recordCerts r "certificate" }

/-- The `for (const cert of certificateList)` loop of the api branch of
`initForm`: each entry assigns the pair of fields selected by its `target`. -/
def applyCerts (f : FormState) : List CertEntry → FormState
  | [] => f
  | cert :: rest =>
    applyCerts
      (if cert.target = "header" then
        { f with headerKey := cert.key, headerValue := cert.value }
      else if cert.target = "cookie" then
        { f with cookieKey := cert.key, cookieValue := cert.value }
      else if cert.target = "param" then
        { f with paramKey := cert.key, paramValue := cert.value }
      else f) rest

/-- The api branch of `initForm` (fields set from the decrypted api payload,
then the side-channel certificate string, when truthy, is parsed and folded
over). The guard `configuration.successStatusCodes && Array.isArray(...)`
always holds for a stored array, so the join is unconditional here. -/
def initFormApiBranch (g : FormState) (c : ApiConf) (cert : Option (List CertEntry)) :
    FormState :=
  let g1 := { g with
    originType := "api"
    endpoint := c.endpoint
    method := jsOrStr c.method "POST"
    requestBody := some (jsOrStr c.requestBody "")
    timeout := jsOrInt c.timeout 30
    successStatusCodes := some (joinCodes c.successStatusCodes)
    certificateList := c.certificateList }
  match cert with
  | some l => applyCerts g1 l
  | none => g1

/-- The relational branch of `initForm` (fields set from the decrypted
relational payload; `timeout` and `originType` are defaulted when falsy). -/
def initFormRelBranch (g : FormState) (c : RelConf) : FormState :=
  { g with
    host := c.host
    port := c.port
    username := c.username
    password := c.password
    database := c.database
    extraJdbc := c.extraJdbc
    dbSchema := c.dbSchema
    filename := c.filename
    sheets := c.sheets
    mode := c.mode
    timeout := jsOrInt c.timeout 30
    originType := jsOrStr c.originType "local" }

/-- `initForm(item)` (edit path, `editTable = false`) applied to the current
form state `g`: copy the common fields, then, when a configuration blob is
present, decrypt it and branch on `item.type === 'api'`. A record whose
`type` tag disagrees with its payload shape makes every payload read yield
`undefined`; that case cannot arise for records produced by `buildConf` and
is modelled as leaving the branch fields unchanged. -/
def initFormItem (g : FormState) (item : DsItem) : FormState :=
  let g0 := { g with
    id := item.id
    name := item.name
    description := item.description
    type := item.type
    configuration := item.configuration }
  match item.configuration with
  | none => g0
  | some (Blob.enc payload) =>
    if item.type = "api" then
      match payload with
      | ConfPayload.api c => initFormApiBranch g0 c item.certificate
      | ConfPayload.rel _ => g0
    else
      match payload with
      | ConfPayload.rel c => initFormRelBranch g0 c
      | ConfPayload.api _ => g0

/-- The effect of `check()` on the form: the api branch posts the raw form
fields to `testApiExcel` and returns without touching the form; every other
branch calls `buildConf`, whose mutation of `form.configuration` persists. -/
def checkForm (f : FormState) : FormState :=
  if f.type = "api" then f else (buildConf f).1

/-- The effect of `getSchema()` on the form: it always calls `buildConf`. -/
def getSchemaForm (f : FormState) : FormState :=
  (buildConf f).1

/-- The selection reconciler state: the search keyword, the full candidate
table list, the locally-rendered checked list (`checkList`), the select-all
checkbox flags, and the durable global selection (`checkTableList`). -/
structure SelState where
  keywords : String
  tableList : List Sheet
  checkList : List String
  checkAll : Bool
  isIndeterminate : Bool
  checkTableList : List String
deriving DecidableEq

/-- `tableListWithSearch`: the full table list when the keyword is falsy,
otherwise the rows whose lowercased name contains the lowercased keyword. -/
def tableListWithSearch (st : SelState) : List Sheet :=
  if st.keywords = "" then st.tableList
  else st.tableList.filter (fun e => jsIncludesLower e.tableName st.keywords)

/-- The names of the currently visible (filtered) rows. -/
def visNames (st : SelState) : List String :=
  (tableListWithSearch st).map (fun e => e.tableName)

/-- `setFilter`: assign the keyword, then the `watch(keywords)` handler
recomputes `checkList` as the globally-selected names still visible, and the
`checkAll`/`isIndeterminate` flags from the recomputed count. -/
def setFilter (st : SelState) (kw : String) : SelState :=
  let st1 := { st with keywords := kw }
  let cl := st1.checkTableList.filter (fun e => (visNames st1).contains e)
  let checkedCount := cl.length
  { st1 with
    checkList := cl
    checkAll := decide (checkedCount = (tableListWithSearch st1).length)
    isIndeterminate :=
      decide (0 < checkedCount) && decide (checkedCount < (tableListWithSearch st1).length) }

/-- `handleCheckAllChange(val)`: checking unions the visible names into both
the rendered list and the global selection (deduplicated, first occurrences
kept); unchecking clears the rendered list and removes exactly the visible
names from the global selection. -/
def handleCheckAllChange (st : SelState) (val : Bool) : SelState :=
  { st with
    checkList :=
      if val then jsSetDedup ((visNames st) ++ st.checkList) else []
    isIndeterminate := false
    checkTableList :=
      if val then jsSetDedup ((visNames st) ++ st.checkTableList)
      else st.checkTableList.filter (fun e => !((visNames st).contains e)) }

/-- `handleCheckedTablesChange(value)`: recompute the flags from the
explicit checked list, then replace the visible part of the global selection
by exactly that list (forget all visible names, re-add the explicit ones,
deduplicated). -/
def handleCheckedTablesChange (st : SelState) (value : List String) : SelState :=
  let checkedCount := value.length
  { st with
    checkAll := decide (checkedCount = (tableListWithSearch st).length)
    isIndeterminate :=
      decide (0 < checkedCount) && decide (checkedCount < (tableListWithSearch st).length)
    checkTableList :=
      jsSetDedup
        ((st.checkTableList.filter (fun e => !((visNames st).contains e))) ++ value) }

/-- One user-level operation of the selection reconciler. -/
inductive SelOp where
  | setFilter (kw : String)
  | toggleAll (val : Bool)
  | toggleMany (value : List String)

/-- Apply one selection operation. -/
def selStep (st : SelState) : SelOp → SelState
  | SelOp.setFilter kw => setFilter st kw
  | SelOp.toggleAll val => handleCheckAllChange st val
  | SelOp.toggleMany value => handleCheckedTablesChange st value

/-- Run a sequence of selection operations. -/
def selRun (st : SelState) (ops : List SelOp) : SelState :=
  ops.foldl selStep st

/-- `n` is absent from every `visibleFiltered` set arising during the
sequence (the visible set of the initial state and of every intermediate
state). -/
def neverVisible (n : String) : SelState → List SelOp → Bool
  | st, [] => !((visNames st).contains n)
  | st, op :: ops => !((visNames st).contains n) && neverVisible n (selStep st op) ops

/-- The checkbox-group contract: every `toggleMany` list of the sequence
only contains names drawn from the then-visible rows. -/
def manyFromVisible : SelState → List SelOp → Bool
  | _, [] => true
  | st, op :: ops =>
    (match op with
     | SelOp.toggleMany value => value.all (fun x => (visNames st).contains x)
     | _ => true) && manyFromVisible (selStep st op) ops

/-- The `{filename, sheets[]}` result shape shared by the local upload, the
remote api fetch and the concatenation call. -/
structure FetchData where
  filename : String
  sheets : List Sheet
deriving DecidableEq

/-- Settled results of the asynchronous calls a `next` invocation can make:
the connectivity probe, the api fetch (`none` = rejected promise) and the
candidate-table fetch. -/
structure NextOracle where
  checkRes : Bool
  apiFetch : Option FetchData
  tablesRes : List Sheet

/-- The component state read and written by `next`. -/
structure WizState where
  form : FormState
  excelUploadSuccess : Bool
  uploadLoading : Bool
  checkLoading : Bool
  tableList : List Sheet
  activeStep : Int

/-- Outcome of one `next` invocation: the updated state, the payload of the
`changeActiveStep` emit (if any) and whether the connect-failed toast fired. -/
structure NextRes where
  st : WizState
  emittedStep : Option Int
  connectFailed : Bool

/-- `next(formEl)` of the main datasource form, after validation settles:
excel advances only on a previously successful upload; api fetches the
remote excel, and on success normalizes the form to the excel flow
(`type := 'excel'`, `originType := 'api'`) and advances; every other type
runs `buildConf` (mutating the form) and the connectivity check, advancing
only on a `true` probe result. -/
def next (valid : Bool) (w : WizState) (o : NextOracle) : NextRes :=
  if !valid then ⟨w, none, false⟩
  else if w.form.type = "excel" then
    if w.excelUploadSuccess then ⟨w, some (w.activeStep + 1), false⟩
    else ⟨w, none, false⟩
  else if w.form.type = "api" then
    if w.uploadLoading then ⟨w, none, false⟩
    else
      match o.apiFetch with
      | some d =>
        ⟨{ w with
            form := { w.form with
              filename := d.filename
              sheets := d.sheets
              type := "excel"
              originType := "api" }
            tableList := d.sheets
            excelUploadSuccess := true
            uploadLoading := false },
          some (w.activeStep + 1), false⟩
      | none => ⟨{ w with uploadLoading := false }, none, false⟩
  else
    if w.checkLoading then ⟨w, none, false⟩
    else
      let w1 := { w with form := (buildConf w.form).1, checkLoading := false }
      if o.checkRes then
        ⟨{ w1 with tableList := o.tablesRes }, some (w.activeStep + 1), false⟩
      else ⟨w1, none, true⟩

/-- The state read by the concatenate-mode branch of `next` (part of the
multi-file variant of the form). -/
structure ConcatState where
  name : String
  files : List String

/-- Settled result of `datasourceApi.concatenateExcels` (`none` = rejected). -/
structure ConcatOracle where
  concatRes : Option FetchData

/-- Outcome of the concatenate-mode branch of `next`: which warning toast
fired, whether the merge endpoint was called, whether `save` was then called
directly, the assignment to `checkList` (if any), and the `changeActiveStep`
emit (if any — the branch never emits one). -/
structure ConcatOutcome where
  warning : Option String
  calledConcat : Bool
  calledSave : Bool
  checkListSet : Option (List String)
  emittedStep : Option Int
deriving DecidableEq

/-- The concatenate-mode branch of `next`: with fewer than two files, warn
and stop before any network call; with a blank name, warn and stop; else
call `concatenateExcels`, and on success auto-select the merged sheets into
`checkList` and call `save` directly (never emitting `changeActiveStep`,
so the choose-tables step is bypassed). -/
def nextConcat (cst : ConcatState) (o : ConcatOracle) : ConcatOutcome :=
  if 2 ≤ cst.files.length then
    if cst.name = "" || strTrim cst.name = "" then
      { warning := some "请输入数据源名称"
        calledConcat := false
        calledSave := false
        checkListSet := none
        emittedStep := none }
    else
      match o.concatRes with
      | some d =>
        { warning := none
          calledConcat := true
          calledSave := true
          checkListSet := some (d.sheets.map (fun s => s.tableName))
          emittedStep := none }
      | none =>
        { warning := some "文件合并失败，请检查文件格式和内容"
          calledConcat := true
          calledSave := false
          checkListSet := none
          emittedStep := none }
  else
    { warning := some "请至少选择两个文件进行合并"
      calledConcat := false
      calledSave := false
      checkListSet := none
      emittedStep := none }

/-- `beforeUpload(rawFile)`: returns `(accepted, uploadLoadingSet)`. A file
with `size / 1024 / 1024 > 50` is refused (returning `false` cancels the
upload before any transfer); otherwise the loading flag is set and the
upload proceeds. The byte size is modelled as an exact rational. -/
def beforeUpload (sizeBytes : ℚ) : Bool × Bool :=
  if 50 < sizeBytes / 1024 / 1024 then (false, false) else (true, true)

/-- `relational-type` in the claims: any `DataSourceType` other than
`excel` and `api` (the types that run the connectivity-check branch of `next`). -/
def relationalType (t : String) : Prop := t ≠ "excel" ∧ t ≠ "api"

/-- A header/cookie/param pair of the form is complete (both parts truthy)
or untouched (both parts empty); `buildConf` drops incomplete pairs, so the
round trip is only claimed for these. -/
def pairOK (k v : String) : Prop := (k ≠ "" ∧ v ≠ "") ∨ (k = "" ∧ v = "")

/-- Concrete table catalog for the selection-durability example, with
`A = "pa"`, `B = "pb_q"`, `C = "qc"`: the keyword `"p"` filters to
`{A, B}` and the keyword `"q"` filters to `{B, C}`. -/
def exTables : List Sheet :=
  [{ tableName := "pa", tableComment := "" },
   { tableName := "pb_q", tableComment := "" },
   { tableName := "qc", tableComment := "" }]

/-- Initial selection state of the example: `globalSelected = {A, C}`. -/
def exSelSt : SelState :=
  { keywords := ""
    tableList := exTables
    checkList := []
    checkAll := false
    isIndeterminate := false
    checkTableList := ["pa", "qc"] }

/-- Selection state used by witnesses: five tables all matching keyword
`"t"`, all five globally selected. -/
def exSelFive : SelState :=
  { keywords := ""
    tableList :=
      [{ tableName := "t1", tableComment := "" },
       { tableName := "t2", tableComment := "" },
       { tableName := "t3", tableComment := "" },
       { tableName := "t4", tableComment := "" },
       { tableName := "t5", tableComment := "" }]
    checkList := []
    checkAll := false
    isIndeterminate := false
    checkTableList := ["t1", "t2", "t3", "t4", "t5"] }

/-- Like `exSelFive` but with only two of the five names globally selected. -/
def exSelTwo : SelState :=
  { exSelFive with checkTableList := ["t2", "t4"] }

/-- A concrete relational (mysql) form state; being the declared component
form, it still carries the api-only keys (`endpoint`, `method`, ...). -/
def relFormEx : FormState :=
  { initialForm "mysql" with
    host := "localhost"
    port := 3306
    username := "u"
    password := "pw"
    database := "db" }

/-- `relFormEx` with the JS-falsy timeout `0`. -/
def relFormT0 : FormState :=
  { relFormEx with timeout := 0 }

/-- A concrete api form state with one complete header auth pair and
canonical success status codes. -/
def apiFormEx : FormState :=
  { initialForm "api" with
    type := "api"
    endpoint := "http://example.com/x"
    headerKey := "hk"
    headerValue := "secret"
    requestBody := some ""
    successStatusCodes := some "200,201" }

/-- An api form state whose configuration blob was never built
(`configuration` is the initial `''`). -/
def apiFormFresh : FormState :=
  { initialForm "api" with type := "api" }

/-- The relational-only fields named by the type-isolation claim. -/
def relationalOnlyKeys : List String :=
  ["host", "port", "database", "username", "password", "extraJdbc",
   "dbSchema", "filename", "sheets", "mode", "driver"]

/-- The api-only fields named by the type-isolation claim. -/
def apiOnlyKeys : List String :=
  ["endpoint", "method", "headerKey", "headerValue", "cookieKey",
   "cookieValue", "paramKey", "paramValue", "certificateList"]

/-- The record fields that would hold a raw credential or auth secret. -/
def credentialKeys : List String :=
  ["username", "password", "headerKey", "headerValue", "cookieKey",
   "cookieValue", "paramKey", "paramValue"]

/-- A wizard state for witnesses: a mysql form at the configure step. -/
def exWizRel : WizState :=
  { form := relFormEx
    excelUploadSuccess := false
    uploadLoading := false
    checkLoading := false
    tableList := []
    activeStep := 1 }

/-- A concatenate-mode state with a single selected file. -/
def exConcatOne : ConcatState := { name := "merged", files := ["a.xlsx"] }

/-- A concatenate-mode state with two selected files. -/
def exConcatTwo : ConcatState := { name := "merged", files := ["a.xlsx", "b.xlsx"] }

/-- The merged result returned by `concatenateExcels` in the witnesses. -/
def exMerged : FetchData :=
  { filename := "merged.xlsx"
    sheets := [{ tableName := "merged", tableComment := "" }] }

/-! ## Library lemmas about the JS-semantics helpers -/

theorem mem_jsSetDedupAux (a : String) :
    ∀ (l seen : List String), a ∈ jsSetDedupAux seen l ↔ a ∈ l ∧ a ∉ seen := by
  intro l
  induction l with
  | nil => intro seen; simp [jsSetDedupAux]
  | cons x xs ih =>
    intro seen
    rw [jsSetDedupAux]
    by_cases hx : x ∈ seen
    · rw [if_pos (List.elem_iff.mpr hx)]
      rw [ih]
      constructor
      · rintro ⟨h1, h2⟩; exact ⟨List.mem_cons_of_mem _ h1, h2⟩
      · rintro ⟨h1, h2⟩
        rcases List.mem_cons.mp h1 with rfl | h1
        · exact absurd hx h2
        · exact ⟨h1, h2⟩
    · rw [if_neg (fun hc => hx (List.elem_iff.mp hc))]
      constructor
      · intro h
        rcases List.mem_cons.mp h with rfl | h
        · exact ⟨List.mem_cons_self _ _, hx⟩
        · obtain ⟨h1, h2⟩ := (ih (x :: seen)).mp h
          exact ⟨List.mem_cons_of_mem _ h1, fun hs => h2 (List.mem_cons_of_mem _ hs)⟩
      · rintro ⟨h1, h2⟩
        rcases List.mem_cons.mp h1 with rfl | h1
        · exact List.mem_cons_self _ _
        · by_cases hax : a = x
          · subst hax; exact List.mem_cons_self _ _
          · refine List.mem_cons_of_mem _ ((ih (x :: seen)).mpr ⟨h1, ?_⟩)
            intro hs
            rcases List.mem_cons.mp hs with rfl | hs
            · exact hax rfl
            · exact h2 hs

theorem mem_jsSetDedup (a : String) (l : List String) : a ∈ jsSetDedup l ↔ a ∈ l := by
  rw [jsSetDedup, mem_jsSetDedupAux]
  simp

theorem nodup_jsSetDedupAux :
    ∀ (l seen : List String), (jsSetDedupAux seen l).Nodup := by
  intro l
  induction l with
  | nil => intro seen; simp [jsSetDedupAux]
  | cons x xs ih =>
    intro seen
    rw [jsSetDedupAux]
    by_cases hx : seen.contains x
    · rw [if_pos hx]; exact ih seen
    · rw [if_neg hx]
      refine List.nodup_cons.mpr ⟨?_, ih (x :: seen)⟩
      intro hmem
      exact ((mem_jsSetDedupAux x xs (x :: seen)).mp hmem).2 (List.mem_cons_self _ _)

theorem nodup_jsSetDedup (l : List String) : (jsSetDedup l).Nodup :=
  nodup_jsSetDedupAux l []

theorem contains_iff (l : List String) (a : String) : l.contains a = true ↔ a ∈ l :=
  List.elem_iff

theorem not_contains_iff (l : List String) (a : String) :
    (!(l.contains a)) = true ↔ a ∉ l := by
  rw [Bool.not_eq_true']
  constructor
  · intro h hm
    rw [(contains_iff l a).mpr hm] at h
    cases h
  · intro hm
    cases hc : l.contains a with
    | false => rfl
    | true => exact absurd ((contains_iff l a).mp hc) hm

theorem charsPrefix_iff : ∀ (a b : List Char), charsPrefix a b = true ↔ a <+: b := by
  intro a
  induction a with
  | nil => intro b; simp [charsPrefix]
  | cons x xs ih =>
    intro b
    cases b with
    | nil => simp [charsPrefix]
    | cons y ys =>
      rw [charsPrefix, Bool.and_eq_true, List.cons_prefix_cons, ih]
      simp

theorem charsInfix_iff (sub : List Char) :
    ∀ l : List Char, charsInfix sub l = true ↔ sub <:+: l := by
  intro l
  induction l with
  | nil => cases sub <;> simp [charsInfix]
  | cons c cs ih =>
    rw [charsInfix, Bool.or_eq_true, charsPrefix_iff, ih]
    exact (List.infix_cons_iff).symm

theorem jsOrStr_empty (s : String) : jsOrStr s "" = s := by
  rw [jsOrStr]
  by_cases h : s = ""
  · rw [if_pos h, h]
  · rw [if_neg h]

/-! ## Lemmas about the configuration builder -/

theorem not_mem_keys_filter_deleted (r : DsRecord) (dk : List String) (k : String)
    (hk : k ∈ dk) :
    k ∉ (r.filter (fun kv => !(dk.contains kv.1))).map Prod.fst := by
  intro hmem
  obtain ⟨kv, hkv, rfl⟩ := List.mem_map.mp hmem
  have hp := List.of_mem_filter hkv
  rw [Bool.not_eq_true'] at hp
  have hc := (contains_iff dk kv.1).mpr hk
  rw [hp] at hc
  cases hc

theorem buildConf_of_api (f : FormState) (h : f.type = "api") :
    buildConf f = buildConfApi f := by
  simp [buildConf, h]

theorem buildConf_of_not_api (f : FormState) (h : f.type ≠ "api") :
    buildConf f = buildConfRel f := by
  simp [buildConf, h]

theorem itemOfRecord_buildConfApi (f : FormState) :
    itemOfRecord (buildConfApi f).2 =
      { id := recordIdOpt (buildConfApi f).2
        name := f.name
        description := f.description
        type := f.type
        configuration := some (Blob.enc (ConfPayload.api (apiConfOf f)))
        certificate := some (certsOf f) } := rfl

theorem itemOfRecord_buildConfRel (f : FormState) :
    itemOfRecord (buildConfRel f).2 =
      { id := recordIdOpt (buildConfRel f).2
        name := f.name
        description := f.description
        type := f.type
        configuration := some (Blob.enc (ConfPayload.rel (relConfOf f)))
        certificate := recordCerts (buildConfRel f).2 "certificate" } := rfl

theorem initFormItem_of_api (g : FormState) (item : DsItem) (c : ApiConf)
    (h : item.type = "api")
    (hc : item.configuration = some (Blob.enc (ConfPayload.api c))) :
    initFormItem g item =
      initFormApiBranch
        { g with
            id := item.id
            name := item.name
            description := item.description
            type := item.type
            configuration := item.configuration } c item.certificate := by
  simp [initFormItem, hc, h]

theorem initFormItem_of_not_api (g : FormState) (item : DsItem) (c : RelConf)
    (h : item.type ≠ "api")
    (hc : item.configuration = some (Blob.enc (ConfPayload.rel c))) :
    initFormItem g item =
      initFormRelBranch
        { g with
            id := item.id
            name := item.name
            description := item.description
            type := item.type
            configuration := item.configuration } c := by
  simp [initFormItem, hc, h]

/-! ## Lemmas about the selection reconciler -/

theorem mem_toggleMany (st : SelState) (value : List String) (n : String) :
    n ∈ (handleCheckedTablesChange st value).checkTableList ↔
      (n ∈ st.checkTableList ∧ n ∉ visNames st) ∨ n ∈ value := by
  show n ∈ jsSetDedup _ ↔ _
  rw [mem_jsSetDedup, List.mem_append, List.mem_filter, not_contains_iff]

theorem mem_toggleAll_true (st : SelState) (n : String) :
    n ∈ (handleCheckAllChange st true).checkTableList ↔
      n ∈ visNames st ∨ n ∈ st.checkTableList := by
  show n ∈ jsSetDedup _ ↔ _
  rw [mem_jsSetDedup, List.mem_append]

theorem mem_toggleAll_false (st : SelState) (n : String) :
    n ∈ (handleCheckAllChange st false).checkTableList ↔
      n ∈ st.checkTableList ∧ n ∉ visNames st := by
  show n ∈ List.filter _ _ ↔ _
  rw [List.mem_filter, not_contains_iff]

theorem setFilter_checkTableList (st : SelState) (kw : String) :
    (setFilter st kw).checkTableList = st.checkTableList := rfl

theorem selStep_preserves (st : SelState) (op : SelOp) (n : String)
    (hn : n ∉ visNames st)
    (hv : ∀ value, op = SelOp.toggleMany value → ∀ x ∈ value, x ∈ visNames st) :
    n ∈ (selStep st op).checkTableList ↔ n ∈ st.checkTableList := by
  cases op with
  | setFilter kw => exact Iff.rfl
  | toggleAll val =>
    cases val with
    | true =>
      rw [show selStep st (SelOp.toggleAll true) = handleCheckAllChange st true from rfl]
      rw [mem_toggleAll_true]
      constructor
      · rintro (h | h)
        · exact absurd h hn
        · exact h
      · exact Or.inr
    | false =>
      rw [show selStep st (SelOp.toggleAll false) = handleCheckAllChange st false from rfl]
      rw [mem_toggleAll_false]
      exact ⟨fun h => h.1, fun h => ⟨h, hn⟩⟩
  | toggleMany value =>
    rw [show selStep st (SelOp.toggleMany value) = handleCheckedTablesChange st value from rfl]
    rw [mem_toggleMany]
    constructor
    · rintro (h | h)
      · exact h.1
      · exact absurd (hv value rfl n h) hn
    · intro h
      exact Or.inl ⟨h, hn⟩

theorem tableListWithSearch_setFilter (st : SelState) (kw : String) :
    tableListWithSearch (setFilter st kw) =
      if kw = "" then st.tableList
      else st.tableList.filter (fun e => jsIncludesLower e.tableName kw) := rfl

/-! ## C1 -/

/-- C1: for any sequence of `setFilter` calls interleaved with
`toggleAll`/`toggleMany` operations, a table name never present in any
`visibleFiltered` set during the sequence (and, per the checkbox-group
contract, never listed in a `toggleMany` argument) is never added to or
removed from the global selection `checkTableList`; moreover the claim's
example (tables `A = "pa"`, `B = "pb_q"`, `C = "qc"`, selection `{A, C}`)
computes as stated: filtering to `{A, B}` then `toggleMany([A])` leaves
`{A, C}` (the list `["qc", "pa"]`), and filtering to `{B, C}` then
`toggleAll(false)` leaves `{A}` (the list `["pa"]`). -/
theorem c1_selection_durability :
    (∀ (ops : List SelOp) (st : SelState) (n : String),
        neverVisible n st ops = true → manyFromVisible st ops = true →
        (n ∈ (selRun st ops).checkTableList ↔ n ∈ st.checkTableList)) ∧
    (selRun exSelSt [SelOp.setFilter "p", SelOp.toggleMany ["pa"]]).checkTableList
      = ["qc", "pa"] ∧
    (selRun exSelSt
        [SelOp.setFilter "p", SelOp.toggleMany ["pa"],
         SelOp.setFilter "q", SelOp.toggleAll false]).checkTableList = ["pa"] := by
  refine ⟨?_, by decide, by decide⟩
  intro ops
  induction ops with
  | nil => intro st n _ _; exact Iff.rfl
  | cons op ops ih =>
    intro st n hnv hmf
    simp only [neverVisible] at hnv
    simp only [manyFromVisible] at hmf
    obtain ⟨hn1, hn2⟩ := Bool.and_eq_true_iff.mp hnv
    obtain ⟨hm1, hm2⟩ := Bool.and_eq_true_iff.mp hmf
    have hn : n ∉ visNames st := (not_contains_iff _ _).mp hn1
    have hv : ∀ value, op = SelOp.toggleMany value → ∀ x ∈ value, x ∈ visNames st := by
      intro value hop x hx
      subst hop
      exact (contains_iff _ _).mp (List.all_eq_true.mp hm1 x hx)
    have hrest := ih (selStep st op) n hn2 hm2
    have hstep := selStep_preserves st op n hn hv
    rw [show selRun st (op :: ops) = selRun (selStep st op) ops from rfl]
    exact hrest.trans hstep

/-- Witness for C1: the name `"zz"` (a checked leftover that matches no
table, hence is visible under no filter) survives the example sequence. -/
theorem c1_selection_durability_witness :
    "zz" ∈ (selRun { exSelSt with checkTableList := ["zz", "pa", "qc"] }
        [SelOp.setFilter "p", SelOp.toggleMany ["pa"],
         SelOp.setFilter "q", SelOp.toggleAll false]).checkTableList ↔
      "zz" ∈ ({ exSelSt with checkTableList := ["zz", "pa", "qc"] } : SelState).checkTableList :=
  c1_selection_durability.1 _ _ "zz" (by decide) (by decide)

/-! ## C2 -/

/-- C2: one `handleCheckedTablesChange(value)` step makes the new global
selection `(checkTableList \ visibleFiltered-names) ∪ value` (membership
characterization), the result is deduplicated (`Nodup`), and — when the
explicit list is drawn from the visible names, as the checkbox group
guarantees — the membership of any name outside the visible set is
unchanged. -/
theorem c2_toggleMany_semantics (st : SelState) (value : List String) (n : String) :
    (n ∈ (handleCheckedTablesChange st value).checkTableList ↔
      (n ∈ st.checkTableList ∧ n ∉ visNames st) ∨ n ∈ value) ∧
    (handleCheckedTablesChange st value).checkTableList.Nodup ∧
    ((∀ x ∈ value, x ∈ visNames st) → n ∉ visNames st →
      (n ∈ (handleCheckedTablesChange st value).checkTableList ↔
        n ∈ st.checkTableList)) := by
  refine ⟨mem_toggleMany st value n, nodup_jsSetDedup _, ?_⟩
  intro hsub hn
  rw [mem_toggleMany]
  constructor
  · rintro (h | h)
    · exact h.1
    · exact absurd (hsub n h) hn
  · intro h
    exact Or.inl ⟨h, hn⟩

/-- Witness for C2: with the example filtered to `{pa, pb_q}`, a
`toggleMany(["pa"])` step leaves the hidden selected name `"qc"` alone. -/
theorem c2_toggleMany_semantics_witness :
    "qc" ∈ (handleCheckedTablesChange (setFilter exSelSt "p") ["pa"]).checkTableList ↔
      "qc" ∈ (setFilter exSelSt "p").checkTableList :=
  (c2_toggleMany_semantics (setFilter exSelSt "p") ["pa"] "qc").2.2
    (by decide) (by decide)

/-! ## C7 -/

/-- C7: after `setFilter`, the visible list is the case-insensitive
substring match of the keyword against each row's table name (the full list
for the empty keyword), the rendered checked list is exactly
`checkTableList ∩ visibleFiltered-names`, `checkAll` holds iff the
recomputed length equals the visible length, `isIndeterminate` iff the
recomputed length is strictly between `0` and the visible length; in
particular with five visible rows an intersection of five gives
`checkAll = true`/`isIndeterminate = false` and an intersection of two
gives `checkAll = false`/`isIndeterminate = true`. -/
theorem c7_setFilter_recompute (st : SelState) (kw : String) :
    ((setFilter st kw).keywords = kw) ∧
    (kw = "" → tableListWithSearch (setFilter st kw) = st.tableList) ∧
    (kw ≠ "" → ∀ e, e ∈ tableListWithSearch (setFilter st kw) ↔
        e ∈ st.tableList ∧ charsToLower kw.data <:+: charsToLower e.tableName.data) ∧
    (∀ x, x ∈ (setFilter st kw).checkList ↔
        x ∈ st.checkTableList ∧ x ∈ visNames (setFilter st kw)) ∧
    ((setFilter st kw).checkAll = true ↔
        (setFilter st kw).checkList.length
          = (tableListWithSearch (setFilter st kw)).length) ∧
    ((setFilter st kw).isIndeterminate = true ↔
        0 < (setFilter st kw).checkList.length ∧
        (setFilter st kw).checkList.length
          < (tableListWithSearch (setFilter st kw)).length) ∧
    ((tableListWithSearch (setFilter st kw)).length = 5 →
      ((setFilter st kw).checkList.length = 5 →
        (setFilter st kw).checkAll = true ∧ (setFilter st kw).isIndeterminate = false) ∧
      ((setFilter st kw).checkList.length = 2 →
        (setFilter st kw).checkAll = false ∧ (setFilter st kw).isIndeterminate = true)) := by
  have he : (setFilter st kw).checkAll = true ↔
      (setFilter st kw).checkList.length
        = (tableListWithSearch (setFilter st kw)).length := by
    rw [show (setFilter st kw).checkAll
        = decide ((setFilter st kw).checkList.length
          = (tableListWithSearch (setFilter st kw)).length) from rfl]
    simp
  have hf : (setFilter st kw).isIndeterminate = true ↔
      0 < (setFilter st kw).checkList.length ∧
      (setFilter st kw).checkList.length
        < (tableListWithSearch (setFilter st kw)).length := by
    rw [show (setFilter st kw).isIndeterminate
        = (decide (0 < (setFilter st kw).checkList.length)
          && decide ((setFilter st kw).checkList.length
            < (tableListWithSearch (setFilter st kw)).length)) from rfl]
    rw [Bool.and_eq_true]
    simp
  refine ⟨rfl, ?_, ?_, ?_, he, hf, ?_⟩
  · intro h
    rw [tableListWithSearch_setFilter, if_pos h]
  · intro h e
    rw [tableListWithSearch_setFilter, if_neg h, List.mem_filter]
    simp only [jsIncludesLower]
    rw [charsInfix_iff]
  · intro x
    rw [show (setFilter st kw).checkList
        = st.checkTableList.filter
            (fun e => ((visNames (setFilter st kw))).contains e) from rfl]
    rw [List.mem_filter, contains_iff]
  · intro h5
    constructor
    · intro hl5
      constructor
      · exact he.mpr (by rw [hl5, h5])
      · cases hi : (setFilter st kw).isIndeterminate with
        | false => rfl
        | true =>
          obtain ⟨_, h2⟩ := hf.mp hi
          rw [hl5, h5] at h2
          exact absurd h2 (by omega)
    · intro hl2
      constructor
      · cases hc : (setFilter st kw).checkAll with
        | false => rfl
        | true =>
          have := he.mp hc
          rw [hl2, h5] at this
          exact absurd this (by omega)
      · exact hf.mpr (by rw [hl2, h5]; omega)

/-- Witness for C7: five visible rows with all five selected, and with two
of five selected. -/
theorem c7_setFilter_recompute_witness :
    ((setFilter exSelFive "t").checkAll = true ∧
      (setFilter exSelFive "t").isIndeterminate = false) ∧
    ((setFilter exSelTwo "t").checkAll = false ∧
      (setFilter exSelTwo "t").isIndeterminate = true) :=
  ⟨((c7_setFilter_recompute exSelFive "t").2.2.2.2.2.2 (by decide)).1 (by decide),
   ((c7_setFilter_recompute exSelTwo "t").2.2.2.2.2.2 (by decide)).2 (by decide)⟩

/-! ## C3 -/

/-- Counterexample for C3: the claim's converse direction is false — the
relational branch of `buildConf` does not strip the api-only fields, so the
persistable record of a mysql form still contains the `endpoint` (and
`method`, `certificateList`, ...) keys. -/
theorem c3_type_isolation_counterexample :
    "endpoint" ∈ (buildConf relFormEx).2.map Prod.fst ∧
    "method" ∈ (buildConf relFormEx).2.map Prod.fst ∧
    "certificateList" ∈ (buildConf relFormEx).2.map Prod.fst ∧
    relFormEx.type = "mysql" := by
  decide

/-- C3 (amended): the api branch of `buildConf` strips every
relational-only field from the persistable record; the relational branch
strips exactly its deleted-key list (`driver` ... `originType`) — it does
not strip the api-only fields, which remain on the record whenever they are
present on the form. -/
theorem c3_type_isolation (f : FormState) :
    (f.type = "api" →
      ∀ k ∈ relationalOnlyKeys, k ∉ (buildConf f).2.map Prod.fst) ∧
    (f.type ≠ "api" →
      ∀ k ∈ relDeletedKeys, k ∉ (buildConf f).2.map Prod.fst) := by
  constructor
  · intro h k hk
    rw [buildConf_of_api f h]
    refine not_mem_keys_filter_deleted _ apiDeletedKeys k ?_
    fin_cases hk <;> decide
  · intro h k hk
    rw [buildConf_of_not_api f h]
    exact not_mem_keys_filter_deleted _ relDeletedKeys k hk

/-- Witness for C3 (amended): concrete api and mysql forms. -/
theorem c3_type_isolation_witness :
    "host" ∉ (buildConf apiFormEx).2.map Prod.fst ∧
    "username" ∉ (buildConf relFormEx).2.map Prod.fst :=
  ⟨(c3_type_isolation apiFormEx).1 rfl "host" (by decide),
   (c3_type_isolation relFormEx).2 (by decide) "username" (by decide)⟩

/-! ## C5 -/

/-- Counterexample for C5: for an api form with a header auth pair, the
persistable record carries that pair in the plain (unencrypted)
`certificate` field — outside the encrypted `configuration` blob — so auth
key-value pairs do not appear only inside the encrypted blob. -/
theorem c5_plaintext_counterexample :
    recordGet (buildConf apiFormEx).2 "certificate" =
      some (FVal.vcerts [{ target := "header", key := "hk", value := "secret" }]) := by
  decide

/-- C5 (amended): the record never carries the raw credential fields
(`username`, `password`, `headerKey`, ..., `paramValue`) as top-level
fields — the api branch deletes the auth key/value fields and both branches
delete `username`/`password` — but for the api type the assembled auth
pairs are additionally persisted in the plain `certificate` side-channel
string, outside the encrypted blob. -/
theorem c5_no_plaintext_credentials (f : FormState) :
    (f.type ≠ "api" →
      "username" ∉ (buildConf f).2.map Prod.fst ∧
      "password" ∉ (buildConf f).2.map Prod.fst) ∧
    (f.type = "api" →
      (∀ k ∈ credentialKeys, k ∉ (buildConf f).2.map Prod.fst) ∧
      recordGet (buildConf f).2 "certificate" = some (FVal.vcerts (certsOf f))) := by
  constructor
  · intro h
    rw [buildConf_of_not_api f h]
    exact ⟨not_mem_keys_filter_deleted _ relDeletedKeys _ (by decide),
      not_mem_keys_filter_deleted _ relDeletedKeys _ (by decide)⟩
  · intro h
    rw [buildConf_of_api f h]
    refine ⟨?_, rfl⟩
    intro k hk
    refine not_mem_keys_filter_deleted _ apiDeletedKeys k ?_
    fin_cases hk <;> decide

/-- Witness for C5 (amended): the api example form. -/
theorem c5_no_plaintext_credentials_witness :
    "headerValue" ∉ (buildConf apiFormEx).2.map Prod.fst ∧
    "password" ∉ (buildConf relFormEx).2.map Prod.fst :=
  ⟨((c5_no_plaintext_credentials apiFormEx).2 rfl).1 "headerValue" (by decide),
   ((c5_no_plaintext_credentials relFormEx).1 (by decide)).2⟩

theorem applyCerts_frame :
    ∀ (l : List CertEntry) (g : FormState),
      (applyCerts g l).endpoint = g.endpoint ∧
      (applyCerts g l).method = g.method ∧
      (applyCerts g l).requestBody = g.requestBody ∧
      (applyCerts g l).timeout = g.timeout ∧
      (applyCerts g l).successStatusCodes = g.successStatusCodes := by
  intro l
  induction l with
  | nil => intro g; exact ⟨rfl, rfl, rfl, rfl, rfl⟩
  | cons c cs ih =>
    intro g
    simp only [applyCerts]
    split_ifs <;> exact ih _

/-! ## C4 -/

/-- Counterexample for C4: the round trip is not the identity for every
`FormState` — a relational form with the JS-falsy `timeout = 0` loads back
with `timeout = 30` (`configuration.timeout ? configuration.timeout : 30`),
so `load (build f)` does not restore `timeout`. -/
theorem c4_round_trip_counterexample :
    (initFormItem (initialForm "mysql") (itemOfRecord (buildConf relFormT0).2)).timeout = 30 ∧
    relFormT0.timeout = 0 := by
  decide

/-- C4 (amended): `initForm` applied (on a fresh wizard-open form) to the
record produced by `buildConf` restores the listed configuration fields,
provided the form is canonical for the JS defaulting: for relational/excel
types a truthy `timeout` and a non-empty `originType`; for `api` a truthy
`timeout`, a non-empty `method`, a present `requestBody`, a
`successStatusCodes` string in canonical comma-joined form, and
header/cookie/param pairs that are each complete or empty. -/
theorem c4_round_trip (t : String) (f : FormState) :
    (f.type ≠ "api" → f.timeout ≠ 0 → f.originType ≠ "" →
      (initFormItem (initialForm t) (itemOfRecord (buildConf f).2)).host = f.host ∧
      (initFormItem (initialForm t) (itemOfRecord (buildConf f).2)).port = f.port ∧
      (initFormItem (initialForm t) (itemOfRecord (buildConf f).2)).username = f.username ∧
      (initFormItem (initialForm t) (itemOfRecord (buildConf f).2)).password = f.password ∧
      (initFormItem (initialForm t) (itemOfRecord (buildConf f).2)).database = f.database ∧
      (initFormItem (initialForm t) (itemOfRecord (buildConf f).2)).extraJdbc = f.extraJdbc ∧
      (initFormItem (initialForm t) (itemOfRecord (buildConf f).2)).dbSchema = f.dbSchema ∧
      (initFormItem (initialForm t) (itemOfRecord (buildConf f).2)).filename = f.filename ∧
      (initFormItem (initialForm t) (itemOfRecord (buildConf f).2)).sheets = f.sheets ∧
      (initFormItem (initialForm t) (itemOfRecord (buildConf f).2)).mode = f.mode ∧
      (initFormItem (initialForm t) (itemOfRecord (buildConf f).2)).timeout = f.timeout ∧
      (initFormItem (initialForm t) (itemOfRecord (buildConf f).2)).originType = f.originType) ∧
    (f.type = "api" → f.timeout ≠ 0 → f.method ≠ "" →
      (∃ rb, f.requestBody = some rb) →
      (∃ s, f.successStatusCodes = some s ∧ s ≠ "" ∧ joinCodes (parseCodes s) = s) →
      pairOK f.headerKey f.headerValue → pairOK f.cookieKey f.cookieValue →
      pairOK f.paramKey f.paramValue →
      (initFormItem (initialForm t) (itemOfRecord (buildConf f).2)).endpoint = f.endpoint ∧
      (initFormItem (initialForm t) (itemOfRecord (buildConf f).2)).method = f.method ∧
      (initFormItem (initialForm t) (itemOfRecord (buildConf f).2)).requestBody = f.requestBody ∧
      (initFormItem (initialForm t) (itemOfRecord (buildConf f).2)).timeout = f.timeout ∧
      (initFormItem (initialForm t) (itemOfRecord (buildConf f).2)).successStatusCodes
        = f.successStatusCodes ∧
      (initFormItem (initialForm t) (itemOfRecord (buildConf f).2)).headerKey = f.headerKey ∧
      (initFormItem (initialForm t) (itemOfRecord (buildConf f).2)).headerValue = f.headerValue ∧
      (initFormItem (initialForm t) (itemOfRecord (buildConf f).2)).cookieKey = f.cookieKey ∧
      (initFormItem (initialForm t) (itemOfRecord (buildConf f).2)).cookieValue = f.cookieValue ∧
      (initFormItem (initialForm t) (itemOfRecord (buildConf f).2)).paramKey = f.paramKey ∧
      (initFormItem (initialForm t) (itemOfRecord (buildConf f).2)).paramValue = f.paramValue) := by
  constructor
  · intro h ht ho
    rw [buildConf_of_not_api f h, itemOfRecord_buildConfRel,
      initFormItem_of_not_api _ _ (relConfOf f) h rfl]
    have h1 : jsOrStr f.originType "local" = f.originType := by
      unfold jsOrStr
      rw [if_neg ho]
    refine ⟨rfl, rfl, rfl, rfl, rfl, rfl, rfl, rfl, rfl, rfl, ?_, ?_⟩
    · show jsOrInt (relConfOf f).timeout 30 = f.timeout
      show jsOrInt f.timeout 30 = f.timeout
      unfold jsOrInt
      rw [if_neg ht]
    · show jsOrStr (relConfOf f).originType "local" = f.originType
      show jsOrStr (jsOrStr f.originType "local") "local" = f.originType
      rw [h1, h1]
  · intro h ht hm hrb hcodes hH hC hP
    obtain ⟨rb, hrb⟩ := hrb
    obtain ⟨s, hs1, hs2, hs3⟩ := hcodes
    rw [buildConf_of_api f h, itemOfRecord_buildConfApi,
      initFormItem_of_api _ _ (apiConfOf f) h rfl]
    simp only [initFormApiBranch]
    have hmeth : jsOrStr f.method "POST" = f.method := by
      unfold jsOrStr
      rw [if_neg hm]
    have htime : jsOrInt f.timeout 30 = f.timeout := by
      unfold jsOrInt
      rw [if_neg ht]
    have hcodesOf : codesOf f = parseCodes s := by
      unfold codesOf
      rw [hs1]
      have htr : jsTruthyStr (some s) = true := by simp [jsTruthyStr, hs2]
      rw [if_pos htr]
      rfl
    refine ⟨?_, ?_, ?_, ?_, ?_, ?_⟩
    · rw [(applyCerts_frame _ _).1]
      rfl
    · rw [(applyCerts_frame _ _).2.1]
      show jsOrStr (apiConfOf f).method "POST" = f.method
      show jsOrStr (jsOrStr f.method "POST") "POST" = f.method
      rw [hmeth, hmeth]
    · rw [(applyCerts_frame _ _).2.2.1]
      show some (jsOrStr (apiConfOf f).requestBody "") = f.requestBody
      show some (jsOrStr (jsOrStr (f.requestBody.getD "") "") "") = f.requestBody
      rw [hrb]
      show some (jsOrStr (jsOrStr rb "") "") = some rb
      rw [jsOrStr_empty, jsOrStr_empty]
    · rw [(applyCerts_frame _ _).2.2.2.1]
      show jsOrInt (apiConfOf f).timeout 30 = f.timeout
      show jsOrInt (jsOrInt f.timeout 30) 30 = f.timeout
      rw [htime, htime]
    · rw [(applyCerts_frame _ _).2.2.2.2]
      show some (joinCodes (apiConfOf f).successStatusCodes) = f.successStatusCodes
      show some (joinCodes (codesOf f)) = f.successStatusCodes
      rw [hcodesOf, hs3, hs1]
    · rcases hH with ⟨hk1, hk2⟩ | ⟨hk1, hk2⟩ <;>
        rcases hC with ⟨hc1, hc2⟩ | ⟨hc1, hc2⟩ <;>
          rcases hP with ⟨hp1, hp2⟩ | ⟨hp1, hp2⟩ <;>
            simp [certsOf, applyCerts, hk1, hk2, hc1, hc2, hp1, hp2, initialForm]

/-- Witness for C4 (amended): the concrete relational and api forms. -/
theorem c4_round_trip_witness :
    (initFormItem (initialForm "mysql") (itemOfRecord (buildConf relFormEx).2)).host
      = relFormEx.host ∧
    (initFormItem (initialForm "api") (itemOfRecord (buildConf apiFormEx).2)).headerKey
      = apiFormEx.headerKey :=
  ⟨((c4_round_trip "mysql" relFormEx).1 (by decide) (by decide) (by decide)).1,
   ((c4_round_trip "api" apiFormEx).2 rfl (by decide) (by decide)
      ⟨"", rfl⟩ ⟨"200,201", rfl, by decide, by decide⟩
      (Or.inl ⟨by decide, by decide⟩) (Or.inr ⟨rfl, rfl⟩)
      (Or.inr ⟨rfl, rfl⟩)).2.2.2.2.2.1⟩

/-! ## C6 -/

/-- C6: `ChooseTables` (the `changeActiveStep (activeStep + 1)` emit from
the configure step) is gated on the settled asynchronous outcome: for
relational types no advance happens on a `false` connectivity probe and an
advance happens on `true`; for `excel` an advance requires a previously
successful upload; for `api` an advance requires a successful remote fetch,
which also normalizes the form type to `excel`; the concatenate-mode branch
never emits a step change at all (it bypasses `ChooseTables`). -/
theorem c6_step_gating (w : WizState) (o : NextOracle) (valid : Bool) :
    (relationalType w.form.type → o.checkRes = false →
      (next valid w o).emittedStep = none) ∧
    (relationalType w.form.type → valid = true → w.checkLoading = false →
      o.checkRes = true → (next valid w o).emittedStep = some (w.activeStep + 1)) ∧
    (w.form.type = "excel" → w.excelUploadSuccess = false →
      (next valid w o).emittedStep = none) ∧
    (w.form.type = "excel" → valid = true → w.excelUploadSuccess = true →
      (next valid w o).emittedStep = some (w.activeStep + 1)) ∧
    (w.form.type = "api" → o.apiFetch = none →
      (next valid w o).emittedStep = none) ∧
    (∀ d, w.form.type = "api" → valid = true → w.uploadLoading = false →
      o.apiFetch = some d →
      (next valid w o).emittedStep = some (w.activeStep + 1) ∧
      (next valid w o).st.form.type = "excel" ∧
      (next valid w o).st.form.originType = "api") ∧
    (∀ (cst : ConcatState) (co : ConcatOracle),
      (nextConcat cst co).emittedStep = none) := by
  refine ⟨?_, ?_, ?_, ?_, ?_, ?_, ?_⟩
  · rintro ⟨hx, ha⟩ hc
    cases valid with
    | false => rfl
    | true =>
      cases hcl : w.checkLoading <;> simp [next, hx, ha, hc, hcl]
  · rintro ⟨hx, ha⟩ hv hcl hc
    subst hv
    simp [next, hx, ha, hc, hcl]
  · intro hx hu
    cases valid with
    | false => rfl
    | true => simp [next, hx, hu]
  · intro hx hv hu
    subst hv
    simp [next, hx, hu]
  · intro hx hf
    cases valid with
    | false => rfl
    | true =>
      cases hul : w.uploadLoading <;> simp [next, hx, hf, hul]
  · intro d hx hv hul hf
    subst hv
    simp [next, hx, hf, hul]
  · intro cst co
    unfold nextConcat
    split_ifs
    · rfl
    · cases co.concatRes <;> rfl
    · rfl

/-- Witness for C6: a mysql form at the configure step with a `true` probe
advances; with a `false` probe it stays. -/
theorem c6_step_gating_witness :
    (next true exWizRel
        { checkRes := true, apiFetch := none, tablesRes := [] }).emittedStep = some 2 ∧
    (next true exWizRel
        { checkRes := false, apiFetch := none, tablesRes := [] }).emittedStep = none :=
  ⟨(c6_step_gating exWizRel { checkRes := true, apiFetch := none, tablesRes := [] }
      true).2.1 ⟨by decide, by decide⟩ rfl rfl rfl,
   (c6_step_gating exWizRel { checkRes := false, apiFetch := none, tablesRes := [] }
      true).1 ⟨by decide, by decide⟩ rfl⟩

/-! ## C8 -/

/-- C8: in concatenate mode, fewer than two selected files raises the
"select at least two files" warning with no ingestion call; with enough
files but a blank data-source name the name warning fires with no call;
with at least two files, a non-blank name and a successful merge, the
merge endpoint is called, the merged sheets are auto-selected into
`checkList`, `save` is called directly, and no step change is emitted. -/
theorem c8_concat_guards (cst : ConcatState) (o : ConcatOracle) :
    (cst.files.length < 2 →
      (nextConcat cst o).warning = some "请至少选择两个文件进行合并" ∧
      (nextConcat cst o).calledConcat = false ∧
      (nextConcat cst o).calledSave = false) ∧
    (2 ≤ cst.files.length → (cst.name = "" ∨ strTrim cst.name = "") →
      (nextConcat cst o).warning = some "请输入数据源名称" ∧
      (nextConcat cst o).calledConcat = false ∧
      (nextConcat cst o).calledSave = false) ∧
    (∀ d, 2 ≤ cst.files.length → ¬(cst.name = "" ∨ strTrim cst.name = "") →
      o.concatRes = some d →
      (nextConcat cst o).calledConcat = true ∧
      (nextConcat cst o).calledSave = true ∧
      (nextConcat cst o).checkListSet = some (d.sheets.map (fun sh => sh.tableName)) ∧
      (nextConcat cst o).emittedStep = none) := by
  refine ⟨?_, ?_, ?_⟩
  · intro hlt
    unfold nextConcat
    rw [if_neg (by omega)]
    exact ⟨rfl, rfl, rfl⟩
  · intro hge hname
    have hb : (decide (cst.name = "") || decide (strTrim cst.name = "")) = true := by
      rcases hname with h | h <;> simp [h]
    unfold nextConcat
    rw [if_pos hge, if_pos hb]
    exact ⟨rfl, rfl, rfl⟩
  · intro d hge hname hres
    obtain ⟨h1, h2⟩ := not_or.mp hname
    have hb : ¬((decide (cst.name = "") || decide (strTrim cst.name = "")) = true) := by
      simp [h1, h2]
    unfold nextConcat
    rw [if_pos hge, if_neg hb, hres]
    exact ⟨rfl, rfl, rfl, rfl⟩

/-- Witness for C8: one file warns without calling the merge endpoint; two
files with a successful merge call it and then `save`. -/
theorem c8_concat_guards_witness :
    (nextConcat exConcatOne { concatRes := some exMerged }).calledConcat = false ∧
    (nextConcat exConcatTwo { concatRes := some exMerged }).calledSave = true ∧
    (nextConcat exConcatTwo { concatRes := some exMerged }).checkListSet
      = some ["merged"] :=
  ⟨((c8_concat_guards exConcatOne { concatRes := some exMerged }).1 (by decide)).2.1,
   ((c8_concat_guards exConcatTwo { concatRes := some exMerged }).2.2 exMerged
      (by decide) (by decide) rfl).2.1,
   ((c8_concat_guards exConcatTwo { concatRes := some exMerged }).2.2 exMerged
      (by decide) (by decide) rfl).2.2.1⟩

/-! ## C9 -/

/-- C9: `beforeUpload` rejects (returns `false`, without setting the
loading flag, so no transfer starts) exactly the files larger than
50 MB (`size / 1024 / 1024 > 50`), and accepts files of at most 50 MB. -/
theorem c9_upload_size_limit (sizeBytes : ℚ) :
    (50 * 1024 * 1024 < sizeBytes → beforeUpload sizeBytes = (false, false)) ∧
    (sizeBytes ≤ 50 * 1024 * 1024 → beforeUpload sizeBytes = (true, true)) := by
  have hiff : (50 < sizeBytes / 1024 / 1024) ↔ 50 * 1024 * 1024 < sizeBytes := by
    rw [div_div, lt_div_iff₀ (by norm_num : (0 : ℚ) < 1024 * 1024)]
    constructor <;> intro hx <;> linarith
  constructor
  · intro hgt
    unfold beforeUpload
    rw [if_pos (hiff.mpr hgt)]
  · intro hle
    unfold beforeUpload
    rw [if_neg (fun hq => absurd (hiff.mp hq) (not_lt.mpr hle))]

/-- Witness for C9: a 51 MB file is rejected before transfer, a 49 MB file
proceeds. -/
theorem c9_upload_size_limit_witness :
    beforeUpload (51 * 1024 * 1024) = (false, false) ∧
    beforeUpload (49 * 1024 * 1024) = (true, true) :=
  ⟨(c9_upload_size_limit (51 * 1024 * 1024)).1 (by norm_num),
   (c9_upload_size_limit (49 * 1024 * 1024)).2 (by norm_num)⟩

/-! ## C10 -/

/-- Counterexample for C10: for an api-type form, `check()` takes the
api branch, posts the raw form fields to `testApiExcel`, and returns
without calling `buildConf` — the form (and in particular its still-empty
`configuration`) is not rewritten, contrary to the claim that `check`
always rewrites these fields. -/
theorem c10_check_counterexample :
    checkForm apiFormFresh = apiFormFresh ∧ apiFormFresh.configuration = none := by
  decide

/-- C10 (amended): `buildConf` is indeed impure — every invocation
overwrites `form.configuration` with the freshly encrypted payload of the
current form (and, in the api branch, `form.certificate` with the plain
certificate list), and forms do change under it (witnessed on the initial
mysql form); `getSchema` always runs `buildConf` and hence always rewrites
these fields, but `check` does so only for non-api types — its api branch
leaves the form untouched. -/
theorem c10_buildConf_mutation (f : FormState) :
    ((buildConf f).1.configuration =
      some (Blob.enc (if f.type = "api" then ConfPayload.api (apiConfOf f)
        else ConfPayload.rel (relConfOf f)))) ∧
    (f.type = "api" → (buildConf f).1.certificate = some (certsOf f)) ∧
    (getSchemaForm f = (buildConf f).1) ∧
    (f.type ≠ "api" → checkForm f = (buildConf f).1) ∧
    (f.type = "api" → checkForm f = f) ∧
    (buildConf (initialForm "mysql")).1 ≠ initialForm "mysql" := by
  refine ⟨?_, ?_, rfl, ?_, ?_, by decide⟩
  · by_cases hty : f.type = "api"
    · rw [buildConf_of_api f hty, if_pos hty]
      rfl
    · rw [buildConf_of_not_api f hty, if_neg hty]
      rfl
  · intro hty
    rw [buildConf_of_api f hty]
    rfl
  · intro hty
    unfold checkForm
    rw [if_neg hty]
  · intro hty
    unfold checkForm
    rw [if_pos hty]

/-- Witness for C10 (amended): concrete relational and api forms. -/
theorem c10_buildConf_mutation_witness :
    checkForm relFormEx = (buildConf relFormEx).1 ∧
    (buildConf apiFormEx).1.certificate = some (certsOf apiFormEx) :=
  ⟨(c10_buildConf_mutation relFormEx).2.2.2.1 (by decide),
   (c10_buildConf_mutation apiFormEx).2.1 rfl⟩
